import Mathlib

/-
Verification of the stealth session and conversation engine of the maistro
twitter integration (src/maistro/integrations/twitter/).  Each definition is a
shallow embedding of the corresponding Python function; machine-level details
that the claims do not touch (logging, HTTP, sleeping) are elided, while the
control flow, data transformations and Python truthiness tests are kept
faithful to the source.
-/

namespace Maistro

/-- Insertion-ordered string-keyed dictionary, modelling a Python `dict`
(Python dicts preserve insertion order, which the conversation tracker's
"first match wins" scan depends on). -/
abbrev Dict (α : Type) : Type := List (String × α)

/-- First value bound to `key`, modelling `d[key]` / `key in d`. -/
def Dict.lookup {α : Type} : Dict α → String → Option α
  | [], _ => none
  | (k, v) :: d, key => if k = key then some v else Dict.lookup d key

/-- Python `key in d`. -/
def Dict.containsKey {α : Type} (d : Dict α) (key : String) : Bool :=
  d.any (fun p => p.1 = key)

/-- Python `d[key] = v`: overwrite in place when the key exists, append
otherwise. -/
def Dict.insert {α : Type} (d : Dict α) (key : String) (v : α) : Dict α :=
  if d.containsKey key then
    d.map (fun p => if p.1 = key then (key, v) else p)
  else
    d ++ [(key, v)]

/-- Python double-splat merge of two dicts, the right one winning on key
conflicts: keys of `a` keep their position (with `b`-values where `b` also
binds the key), and keys only in `b` are appended in `b`-order. -/
def Dict.mergeRight {α : Type} (a b : Dict α) : Dict α :=
  a.map (fun p =>
    match Dict.lookup b p.1 with
    | some v => (p.1, v)
    | none => p)
  ++ b.filter (fun p => ! Dict.containsKey a p.1)

theorem Dict.lookup_append {α : Type} (d₁ d₂ : Dict α) (k : String) :
    Dict.lookup (d₁ ++ d₂) k =
      (if (Dict.lookup d₁ k).isSome then Dict.lookup d₁ k else Dict.lookup d₂ k) := by
  induction d₁ with
  | nil => simp [Dict.lookup]
  | cons p d ih =>
    obtain ⟨k₁, v₁⟩ := p
    by_cases h : k₁ = k <;> simp [Dict.lookup, h, ih]

theorem Dict.containsKey_eq_isSome_lookup {α : Type} (d : Dict α) (k : String) :
    Dict.containsKey d k = (Dict.lookup d k).isSome := by
  induction d with
  | nil => simp [Dict.containsKey, Dict.lookup]
  | cons p d ih =>
    obtain ⟨k₁, v₁⟩ := p
    by_cases h : k₁ = k
    · simp [Dict.containsKey, Dict.lookup, h]
    · simp [Dict.containsKey, Dict.lookup, h] at ih ⊢
      exact ih

theorem Dict.lookup_map_override {α : Type} (a b : Dict α) (k : String) :
    Dict.lookup (a.map (fun p =>
      match Dict.lookup b p.1 with
      | some v => (p.1, v)
      | none => p)) k =
      (Dict.lookup a k).map (fun v => (Dict.lookup b k).getD v) := by
  induction a with
  | nil => simp [Dict.lookup]
  | cons p d ih =>
    obtain ⟨k₁, v₁⟩ := p
    by_cases h : k₁ = k
    · subst h
      cases hb : Dict.lookup b k₁ <;> simp [Dict.lookup, hb]
    · cases hb : Dict.lookup b k₁ <;> simp [Dict.lookup, hb, h, ih]

theorem Dict.lookup_filter_of_not_mem {α : Type} (a b : Dict α) (k : String)
    (h : Dict.containsKey a k = false) :
    Dict.lookup (b.filter (fun p => ! Dict.containsKey a p.1)) k = Dict.lookup b k := by
  induction b with
  | nil => rfl
  | cons p d ih =>
    obtain ⟨k₂, v₂⟩ := p
    by_cases hk : k₂ = k
    · subst hk
      simp [List.filter, h, Dict.lookup]
    · cases ha : Dict.containsKey a k₂ <;> simp [List.filter, ha, Dict.lookup, hk, ih]

/-- Main characterization of the Python merge: lookups prefer `b` and fall back
to `a`. -/
theorem Dict.lookup_mergeRight {α : Type} (a b : Dict α) (k : String) :
    Dict.lookup (Dict.mergeRight a b) k =
      (if (Dict.lookup b k).isSome then Dict.lookup b k else Dict.lookup a k) := by
  unfold Dict.mergeRight
  rw [Dict.lookup_append, Dict.lookup_map_override]
  cases ha : Dict.lookup a k with
  | some v =>
    cases hb : Dict.lookup b k <;> simp
  | none =>
    have hca : Dict.containsKey a k = false := by
      rw [Dict.containsKey_eq_isSome_lookup, ha]; rfl
    rw [Dict.lookup_filter_of_not_mem a b k hca]
    cases hb : Dict.lookup b k <;> simp

/-! Data model of the conversation tracker
(src/maistro/integrations/twitter/conversation_tracker.py). -/

/-- One message of a conversation thread (the JSON objects the tracker appends
to a thread's `messages` list). -/
structure Message where
  tweet_id : String
  sender : String
  text : String
  timestamp : String
  is_reply_to : Option String
deriving DecidableEq, Repr

/-- One conversation thread record. -/
structure Thread where
  user : Option String
  started_at : String
  messages : List Message
deriving DecidableEq, Repr

/-- The tracker's `self.conversations`: thread id to thread record, in
insertion order. -/
abbrev ConversationStore : Type := Dict Thread

/-- ConversationTracker._save_conversations: re-read the on-disk store, merge
it with the in-memory store (in-memory values winning on conflicts), write the
merged map to disk and replace the in-memory store by the merged map.  Returns
(file contents written, new in-memory store). -/
def save_conversations (disk mem : ConversationStore) :
    ConversationStore × ConversationStore :=
  let merged := Dict.mergeRight disk mem
  (merged, merged)

/-- ConversationTracker.add_bot_reply: if the thread id is unknown, log an
error and return False without touching the store; otherwise append one
message sent by the bot, whose `is_reply_to` is the `tweet_id` of the thread's
current last message.  Python evaluates `messages[-1]` before the append and
raises IndexError when the list is empty; that uncaught exception is modelled
as `none`. -/
def add_bot_reply (bot now : String) (store : ConversationStore)
    (thread_id tweet_id text : String) : Option (ConversationStore × Bool) :=
  match Dict.lookup store thread_id with
  | none => some (store, false)
  | some t =>
    match t.messages.getLast? with
    | none => none
    | some last =>
      some
        (Dict.insert store thread_id
          { t with
            messages := t.messages ++
              [{ tweet_id := tweet_id, sender := bot, text := text,
                 timestamp := now, is_reply_to := some last.tweet_id }] },
         true)

theorem Dict.lookup_map_overwrite {α : Type} (d : Dict α) (k : String) (v : α)
    (hc : (Dict.lookup d k).isSome = true) :
    Dict.lookup (d.map (fun p => if p.1 = k then (k, v) else p)) k = some v := by
  induction d with
  | nil => simp [Dict.lookup] at hc
  | cons p rest ih =>
    obtain ⟨k₁, v₁⟩ := p
    rw [List.map_cons]
    by_cases h : k₁ = k
    · subst h
      rw [if_pos (show ((k₁, v₁) : String × α).1 = k₁ from rfl)]
      simp [Dict.lookup]
    · rw [if_neg (show ¬ ((k₁, v₁) : String × α).1 = k from h)]
      simp only [Dict.lookup, h, if_false] at hc
      simp [Dict.lookup, h, ih hc]

theorem Dict.lookup_insert_self {α : Type} (d : Dict α) (k : String) (v : α) :
    Dict.lookup (Dict.insert d k v) k = some v := by
  unfold Dict.insert
  cases hc : Dict.containsKey d k with
  | false =>
    simp only [Bool.false_eq_true, if_false]
    rw [Dict.lookup_append]
    rw [Dict.containsKey_eq_isSome_lookup] at hc
    cases hl : Dict.lookup d k with
    | some v₁ => rw [hl] at hc; simp at hc
    | none => simp [Dict.lookup]
  | true =>
    simp only [if_true]
    rw [Dict.containsKey_eq_isSome_lookup] at hc
    exact Dict.lookup_map_overwrite d k v hc

/-- C7: saving the conversation store is merge-on-write.  The written file is
the union of the on-disk map and the in-memory map keyed by thread id, the
in-memory value winning whenever the same thread id occurs in both; in
particular a thread id present in either map is present in the saved file. -/
theorem save_conversations_merge_on_write (disk mem : ConversationStore) (k : String) :
    (Dict.lookup (save_conversations disk mem).1 k =
      if (Dict.lookup mem k).isSome then Dict.lookup mem k else Dict.lookup disk k)
    ∧ (Dict.containsKey (save_conversations disk mem).1 k =
        (Dict.containsKey disk k || Dict.containsKey mem k)) := by
  constructor
  · exact Dict.lookup_mergeRight disk mem k
  · rw [Dict.containsKey_eq_isSome_lookup, Dict.containsKey_eq_isSome_lookup,
      Dict.containsKey_eq_isSome_lookup]
    show (Dict.lookup (Dict.mergeRight disk mem) k).isSome = _
    rw [Dict.lookup_mergeRight]
    cases hm : Dict.lookup mem k <;> cases hd : Dict.lookup disk k <;> simp

/-- C10: add_bot_reply on an unknown thread id returns False and leaves the
store unchanged; on a known thread id with a non-empty message list it appends
exactly one message, sent by the bot and replying to the tweet id of the
previously-last message of that thread, and returns True. -/
theorem add_bot_reply_spec (bot now : String) (store : ConversationStore)
    (thread_id tweet_id text : String) :
    (Dict.lookup store thread_id = none →
      add_bot_reply bot now store thread_id tweet_id text = some (store, false))
    ∧ (∀ t last, Dict.lookup store thread_id = some t →
        t.messages.getLast? = some last →
        add_bot_reply bot now store thread_id tweet_id text =
          some
            (Dict.insert store thread_id
              { t with
                messages := t.messages ++
                  [{ tweet_id := tweet_id, sender := bot, text := text,
                     timestamp := now, is_reply_to := some last.tweet_id }] },
             true)
        ∧ Dict.lookup
            (Dict.insert store thread_id
              { t with
                messages := t.messages ++
                  [{ tweet_id := tweet_id, sender := bot, text := text,
                     timestamp := now, is_reply_to := some last.tweet_id }] })
            thread_id =
          some
            { t with
              messages := t.messages ++
                [{ tweet_id := tweet_id, sender := bot, text := text,
                   timestamp := now, is_reply_to := some last.tweet_id }] }) := by
  constructor
  · intro h
    unfold add_bot_reply
    rw [h]
  · intro t last ht hlast
    constructor
    · simp [add_bot_reply, ht, hlast]
    · exact Dict.lookup_insert_self _ _ _

/-- Sample thread record used to evaluate the conversation-tracker theorems on
concrete inputs. -/
def sampleThread : Thread :=
  { user := some "alice", started_at := "2024",
    messages := [{ tweet_id := "100", sender := "alice", text := "hi",
                   timestamp := "2024", is_reply_to := none }] }

/-- Sample one-thread conversation store. -/
def sampleStore : ConversationStore := [("t1", sampleThread)]

/-- Witness for C10 at a concrete one-thread store: an unknown thread id is
rejected without change, and a reply to the known thread appends the bot's
message replying to tweet 100. -/
theorem add_bot_reply_spec_witness :
    add_bot_reply "bot" "now" sampleStore "t0" "200" "hello" = some (sampleStore, false)
    ∧ add_bot_reply "bot" "now" sampleStore "t1" "200" "hello" =
        some
          (Dict.insert sampleStore "t1"
            { sampleThread with
              messages := sampleThread.messages ++
                [{ tweet_id := "200", sender := "bot", text := "hello",
                   timestamp := "now", is_reply_to := some "100" }] },
           true) :=
  ⟨(add_bot_reply_spec "bot" "now" sampleStore "t0" "200" "hello").1 (by decide),
   ((add_bot_reply_spec "bot" "now" sampleStore "t1" "200" "hello").2 sampleThread
      { tweet_id := "100", sender := "alice", text := "hi",
        timestamp := "2024", is_reply_to := none } (by decide) (by decide)).1⟩

/-! Posting scheduler (src/maistro/integrations/twitter/scheduler.py). -/

/-- Python random.uniform a b, modelled with an explicit sample r drawn from
the unit interval: the returned value is a + (b - a) * r. -/
def uniform (a b r : ℚ) : ℚ := a + (b - a) * r

/-- scheduler._calculate_next_interval: read the configured min and max posting
intervals (minutes); when max is not greater than min, silently raise the
effective max to min + 120; draw a uniform number of minutes between them and
return it converted to seconds. -/
def calculate_next_interval (min_interval max_interval : ℤ) (r : ℚ) : ℚ :=
  let max_minutes : ℤ :=
    if max_interval ≤ min_interval then min_interval + 120 else max_interval
  let minutes : ℚ := uniform (min_interval : ℚ) (max_minutes : ℚ) r
  minutes * 60

/-- The scheduler module state: the shared `running` flag and the stored worker
thread handle (handles abstracted to numbers). -/
structure SchedulerState where
  running : Bool
  thread : Option ℕ
deriving DecidableEq, Repr

/-- scheduler.start_scheduler: when the running flag is set, warn and return
the existing thread handle without spawning anything; otherwise create and
start a new worker thread and return its handle.  The running flag itself is
set by the worker loop, not here.  Returns (new module state, returned handle,
whether a new worker was spawned). -/
def start_scheduler (s : SchedulerState) (fresh : ℕ) : SchedulerState × Option ℕ × Bool :=
  if s.running then (s, s.thread, false)
  else ({ s with thread := some fresh }, some fresh, true)

/-- First action of scheduler._scheduler_loop in the spawned worker: set the
shared running flag. -/
def scheduler_loop_enter (s : SchedulerState) : SchedulerState :=
  { s with running := true }

/-- scheduler.stop_scheduler: clear the running flag and report True when it
was set; otherwise warn and report False.  Returns (new state, report). -/
def stop_scheduler (s : SchedulerState) : SchedulerState × Bool :=
  if s.running then ({ s with running := false }, true) else (s, false)

/-- C8: with min < max the computed interval (in seconds) always lies between
min and max minutes; with max less than or equal to min the effective max is
silently raised to min + 120 and the interval lies between min and min + 120
minutes. -/
theorem calculate_next_interval_bounds (mn mx : ℤ) (r : ℚ) (h0 : 0 ≤ r) (h1 : r ≤ 1) :
    (mn < mx →
      (mn : ℚ) * 60 ≤ calculate_next_interval mn mx r ∧
        calculate_next_interval mn mx r ≤ (mx : ℚ) * 60)
    ∧ (mx ≤ mn →
      (mn : ℚ) * 60 ≤ calculate_next_interval mn mx r ∧
        calculate_next_interval mn mx r ≤ ((mn : ℚ) + 120) * 60) := by
  simp only [calculate_next_interval, uniform]
  constructor
  · intro hlt
    rw [if_neg (by omega)]
    have hd : (0 : ℚ) ≤ (mx : ℚ) - (mn : ℚ) := by
      have h : (mn : ℚ) ≤ (mx : ℚ) := by exact_mod_cast le_of_lt hlt
      linarith
    constructor <;> nlinarith
  · intro hle
    rw [if_pos hle]
    push_cast
    constructor <;> nlinarith

/-- Witness for C8: sampling between 10 and 20 minutes at r = 1/2, and with a
misconfigured max (max 10 below min 20). -/
theorem calculate_next_interval_bounds_witness :
    ((10 : ℚ) * 60 ≤ calculate_next_interval 10 20 (1/2) ∧
      calculate_next_interval 10 20 (1/2) ≤ (20 : ℚ) * 60)
    ∧ ((20 : ℚ) * 60 ≤ calculate_next_interval 20 10 (1/2) ∧
      calculate_next_interval 20 10 (1/2) ≤ ((20 : ℚ) + 120) * 60) :=
  ⟨(calculate_next_interval_bounds 10 20 (1/2) (by norm_num) (by norm_num)).1 (by norm_num),
   (calculate_next_interval_bounds 20 10 (1/2) (by norm_num) (by norm_num)).2 (by norm_num)⟩

/-- C9: starting an already-running scheduler is a no-op returning the existing
handle and spawning no worker; stopping a non-running scheduler is a no-op
reporting False; stopping a running scheduler reports True. -/
theorem start_stop_scheduler_spec (s : SchedulerState) (fresh : ℕ) :
    (s.running = true → start_scheduler s fresh = (s, s.thread, false))
    ∧ (s.running = false → stop_scheduler s = (s, false))
    ∧ (s.running = true → (stop_scheduler s).2 = true) := by
  refine ⟨fun h => ?_, fun h => ?_, fun h => ?_⟩ <;>
    simp [start_scheduler, stop_scheduler, h]

/-- Witness for C9 at a running and a stopped scheduler state. -/
theorem start_stop_scheduler_spec_witness :
    (start_scheduler { running := true, thread := some 5 } 9 =
      ({ running := true, thread := some 5 }, some 5, false))
    ∧ (stop_scheduler { running := false, thread := none } =
      ({ running := false, thread := none }, false))
    ∧ ((stop_scheduler { running := true, thread := some 5 }).2 = true) :=
  ⟨(start_stop_scheduler_spec { running := true, thread := some 5 } 9).1 rfl,
   (start_stop_scheduler_spec { running := false, thread := none } 9).2.1 rfl,
   (start_stop_scheduler_spec { running := true, thread := some 5 } 9).2.2 rfl⟩

/-! Cached-session login path (src/maistro/integrations/twitter/auth.py). -/

/-- Contents of the per-account cookie cache file written by
auth._save_cookies_to_cache: the simple cookie dict, the CSRF token and the
save timestamp in seconds (the full cookie objects only repeat this data with
attributes the claims do not touch). -/
structure CookieCache where
  cookies_dict : Dict String
  csrf_token : Option String
  timestamp : ℚ

/-- The part of the TwitterAuth session state touched by the cached-login
path. -/
structure AuthState where
  cookies : Dict String
  csrf_token : Option String

/-- auth._load_cookies_from_cache: absent cache file fails; a cache older than
12 hours is rejected as expired; otherwise the cached cookies and CSRF token
replace the session's, and the load succeeds when the cookie dict is non-empty,
holds an auth_token cookie, and the CSRF token is present. -/
def load_cookies_from_cache (now : ℚ) (cache : Option CookieCache) (st : AuthState) :
    AuthState × Bool :=
  match cache with
  | none => (st, false)
  | some cd =>
    if now - cd.timestamp > 12 * 60 * 60 then (st, false)
    else
      let st' : AuthState := { cookies := cd.cookies_dict, csrf_token := cd.csrf_token }
      (st', decide (0 < st'.cookies.length) && Dict.containsKey st'.cookies "auth_token"
        && st'.csrf_token.isSome)

/-- auth._verify_credentials: the essential-cookie check (auth_token, ct0,
twid must all be present). -/
def verify_credentials (st : AuthState) : Bool :=
  Dict.containsKey st.cookies "auth_token" && Dict.containsKey st.cookies "ct0"
    && Dict.containsKey st.cookies "twid"

/-- The cached-session branch at the top of TwitterAuth.login: when the cache
loads and the essential cookies verify, return success without running the
login flow; otherwise clear the session and run the full flow, whose outcome
is the abstract `flow_result`.  Returns (login result, whether the full flow
ran). -/
def login_cached (now : ℚ) (cache : Option CookieCache) (st : AuthState)
    (flow_result : Bool) : Bool × Bool :=
  let p := load_cookies_from_cache now cache st
  if p.2 && verify_credentials p.1 then (true, false)
  else (flow_result, true)

/-- C5: a session cache saved less than 12 hours ago that passes the
essential-cookie checks is reused, and login succeeds without running the
login flow; a cache saved 13 hours ago is discarded and the full login flow
runs. -/
theorem login_cached_session_reuse (now : ℚ) (cd : CookieCache) (st : AuthState)
    (flow_result : Bool) :
    (now - cd.timestamp < 12 * 60 * 60 →
      cd.cookies_dict ≠ [] →
      Dict.containsKey cd.cookies_dict "auth_token" = true →
      Dict.containsKey cd.cookies_dict "ct0" = true →
      Dict.containsKey cd.cookies_dict "twid" = true →
      cd.csrf_token.isSome = true →
      login_cached now (some cd) st flow_result = (true, false))
    ∧ (now - cd.timestamp = 13 * 60 * 60 →
      login_cached now (some cd) st flow_result = (flow_result, true)) := by
  constructor
  · intro hfresh hne hauth hct0 htwid hcsrf
    have hlen : 0 < cd.cookies_dict.length := List.length_pos.mpr hne
    have hc : ¬ (now - cd.timestamp > 12 * 60 * 60) := by linarith
    simp only [login_cached, load_cookies_from_cache]
    rw [if_neg hc]
    simp [verify_credentials, hauth, hct0, htwid, hcsrf, hlen]
  · intro hold
    have hc : now - cd.timestamp > 12 * 60 * 60 := by rw [hold]; norm_num
    simp only [login_cached, load_cookies_from_cache]
    rw [if_pos hc]
    simp

/-- Witness for C5: a cache saved 500 seconds ago with all essential cookies
is reused without the flow; the same cache read 13 hours after its save
triggers the full flow. -/
theorem login_cached_session_reuse_witness :
    login_cached 1000
      (some { cookies_dict := [("auth_token", "a"), ("ct0", "c"), ("twid", "t")],
              csrf_token := some "c", timestamp := 500 })
      { cookies := [], csrf_token := none } false = (true, false)
    ∧ login_cached 47300
      (some { cookies_dict := [("auth_token", "a"), ("ct0", "c"), ("twid", "t")],
              csrf_token := some "c", timestamp := 500 })
      { cookies := [], csrf_token := none } false = (false, true) :=
  ⟨(login_cached_session_reuse 1000
      { cookies_dict := [("auth_token", "a"), ("ct0", "c"), ("twid", "t")],
        csrf_token := some "c", timestamp := 500 }
      { cookies := [], csrf_token := none } false).1
      (by norm_num) (by decide) (by decide) (by decide) (by decide) (by decide),
   (login_cached_session_reuse 47300
      { cookies_dict := [("auth_token", "a"), ("ct0", "c"), ("twid", "t")],
        csrf_token := some "c", timestamp := 500 }
      { cookies := [], csrf_token := none } false).2 (by norm_num)⟩

/-! Login flow engine (src/maistro/integrations/twitter/auth.py,
TwitterAuth.login). -/

/-- The subtask identifiers the login loop dispatches on; every identifier the
code does not recognize falls into `other`. -/
inductive SubtaskId
  | denyLogin
  | twoFactorChallenge
  | accountDuplicationCheck
  | loginAcid
  | loginSuccess
  | other (id : String)
deriving DecidableEq, Repr

/-- One response of the onboarding task endpoint: the subtasks the server
demands next (the evolving flow token is implicit in the response index). -/
structure FlowData where
  subtasks : List SubtaskId
deriving DecidableEq, Repr

/-- The subtask-processing loop of TwitterAuth.login.  `fuel` is the number of
iterations still allowed by the `iteration < max_subtask_iterations` guard (10
minus the iterations already executed); `pos` indexes the scripted server
responses consumed by _execute_flow_task; `iter` counts executed iterations.
DenyLoginSubtask and unrecognized subtasks fail immediately,
LoginSuccessSubtask succeeds, the two-factor and email branches fail
immediately when their secret or fallback address is missing, and both
fall-through exits of the Python loop return False.  Returns (login result,
total iterations executed). -/
def subtask_loop (server : ℕ → FlowData) (has_secret has_email : Bool) :
    ℕ → FlowData → ℕ → ℕ → Bool × ℕ
  | 0, _, _, iter => (false, iter)
  | fuel + 1, fd, pos, iter =>
    match fd.subtasks.head? with
    | none => (false, iter)
    | some st =>
      match st with
      | .denyLogin => (false, iter + 1)
      | .loginSuccess => (true, iter + 1)
      | .twoFactorChallenge =>
        if has_secret then
          subtask_loop server has_secret has_email fuel (server pos) (pos + 1) (iter + 1)
        else (false, iter + 1)
      | .accountDuplicationCheck =>
        subtask_loop server has_secret has_email fuel (server pos) (pos + 1) (iter + 1)
      | .loginAcid =>
        if has_email then
          subtask_loop server has_secret has_email fuel (server pos) (pos + 1) (iter + 1)
        else (false, iter + 1)
      | .other _ => (false, iter + 1)

/-- TwitterAuth.login after the cached-session branch, driven by a scripted
sequence of server responses: the four fixed flow calls (flow init, JS
instrumentation, user identifier, password) consume responses 0 to 3, then the
subtask loop starts on the password response with the safety limit of 10
iterations. -/
def login_flow (server : ℕ → FlowData) (has_secret has_email : Bool) : Bool × ℕ :=
  subtask_loop server has_secret has_email 10 (server 3) 4 0

theorem subtask_loop_iter_le (server : ℕ → FlowData) (hs he : Bool) :
    ∀ fuel fd pos iter, (subtask_loop server hs he fuel fd pos iter).2 ≤ iter + fuel := by
  intro fuel
  induction fuel with
  | zero =>
    intro fd pos iter
    show iter ≤ iter + 0
    omega
  | succ n ih =>
    intro fd pos iter
    simp only [subtask_loop]
    cases h : fd.subtasks.head? with
    | none => show iter ≤ iter + (n + 1); omega
    | some st =>
      cases st with
      | denyLogin => show iter + 1 ≤ iter + (n + 1); omega
      | loginSuccess => show iter + 1 ≤ iter + (n + 1); omega
      | other id => show iter + 1 ≤ iter + (n + 1); omega
      | twoFactorChallenge =>
        show (if hs = true then subtask_loop server hs he n (server pos) (pos + 1) (iter + 1)
          else (false, iter + 1)).2 ≤ iter + (n + 1)
        split
        · exact le_trans (ih (server pos) (pos + 1) (iter + 1)) (by omega)
        · show iter + 1 ≤ iter + (n + 1); omega
      | accountDuplicationCheck =>
        exact le_trans (ih (server pos) (pos + 1) (iter + 1)) (by omega)
      | loginAcid =>
        show (if he = true then subtask_loop server hs he n (server pos) (pos + 1) (iter + 1)
          else (false, iter + 1)).2 ≤ iter + (n + 1)
        split
        · exact le_trans (ih (server pos) (pos + 1) (iter + 1)) (by omega)
        · show iter + 1 ≤ iter + (n + 1); omega

theorem subtask_loop_deny (server : ℕ → FlowData) (hs he : Bool)
    (fuel : ℕ) (fd : FlowData) (pos iter : ℕ)
    (h : fd.subtasks.head? = some SubtaskId.denyLogin) :
    subtask_loop server hs he (fuel + 1) fd pos iter = (false, iter + 1) := by
  simp [subtask_loop, h]

/-- C3: the subtask-processing loop never runs past the safety bound: for every
scripted sequence of server responses the iteration count is at most 10; a
server that answers every step with the same subtask identifier (here
AccountDuplicationCheck, i.e. 50 times over and beyond) makes login return
failure exactly at iteration 10; and a response whose next subtask is
DenyLoginSubtask makes the loop return failure at once. -/
theorem login_flow_safety_bound (server : ℕ → FlowData) (hs he : Bool) :
    (login_flow server hs he).2 ≤ 10
    ∧ login_flow (fun _ => { subtasks := [SubtaskId.accountDuplicationCheck] }) hs he =
        (false, 10)
    ∧ ((server 3).subtasks.head? = some SubtaskId.denyLogin →
        login_flow server hs he = (false, 1)) := by
  refine ⟨?_, ?_, ?_⟩
  · exact le_trans (subtask_loop_iter_le server hs he 10 (server 3) 4 0) (by omega)
  · rfl
  · intro h
    exact subtask_loop_deny server hs he 9 (server 3) 4 0 h

/-- Witness for C3: a server that denies at the decision point makes login
fail in one iteration, while an endlessly repeating AccountDuplicationCheck
stops at iteration 10. -/
theorem login_flow_safety_bound_witness :
    (login_flow (fun _ => { subtasks := [SubtaskId.denyLogin] }) true true).2 ≤ 10
    ∧ login_flow (fun _ => { subtasks := [SubtaskId.accountDuplicationCheck] }) true true =
        (false, 10)
    ∧ login_flow (fun _ => { subtasks := [SubtaskId.denyLogin] }) true true = (false, 1) :=
  ⟨(login_flow_safety_bound (fun _ => { subtasks := [SubtaskId.denyLogin] }) true true).1,
   (login_flow_safety_bound (fun _ => { subtasks := [SubtaskId.denyLogin] }) true true).2.1,
   (login_flow_safety_bound (fun _ => { subtasks := [SubtaskId.denyLogin] }) true true).2.2 rfl⟩

/-! Request queue retry path (src/maistro/integrations/twitter/utils.py). -/

/-- The closure state RequestQueue.add shares with its execute_request wrapper:
the nonlocal result and error slots. -/
structure TaskCell (α ε : Type) where
  result : Option α
  error : Option ε
deriving DecidableEq, Repr

/-- The execute_request wrapper built inside RequestQueue.add around the
submitted callable: it runs the callable inside try/except, storing the value
in the result slot or the caught exception in the error slot, then signals
completion in the finally block.  It never lets an exception escape, so to its
caller it always returns normally (the Except.ok on the right). -/
def execute_request {α ε : Type} (call : Except ε α) (c : TaskCell α ε) :
    TaskCell α ε × Except Unit Unit :=
  match call with
  | .ok a => ({ c with result := some a }, .ok ())
  | .error e => ({ c with error := some e }, .ok ())

/-- RequestQueue._execute_with_retry: invoke the request function; on normal
return reset the consecutive-error counter and stop; on an exception retry
while retry_count stays at or below max_retries (after backoff), else re-raise.
`req k` is the behavior of the k-th invocation; `fuel` is the number of
attempts the while-guard still allows (max_retries + 1 minus the current
retry_count).  Returns (final cell, total invocations, whether the last
exception was re-raised). -/
def execute_with_retry {α ε : Type}
    (req : ℕ → TaskCell α ε → TaskCell α ε × Except Unit Unit) :
    ℕ → ℕ → TaskCell α ε → TaskCell α ε × ℕ × Bool
  | 0, k, c => (c, k, true)
  | fuel + 1, k, c =>
    match req k c with
    | (c', .ok _) => (c', k + 1, false)
    | (c', .error _) => execute_with_retry req fuel (k + 1) c'

/-- RequestQueue.add for one task, as the submitting thread sees it: the
execute_request wrapper is queued, the worker runs it through
_execute_with_retry (max_retries = 3, so the while-guard admits up to 4
wrapper invocations were exceptions to escape the wrapper), the submitter
wakes on the completion signal and then re-raises the recorded error, if any,
else returns the recorded result.  `call k` is the outcome of the k-th
invocation of the submitted callable.  Returns (what the submitter sees,
number of invocations of the callable). -/
def request_queue_add {α ε : Type} (call : ℕ → Except ε α) : Except ε (Option α) × ℕ :=
  let out := execute_with_retry (fun k c => execute_request (call k) c) 4 0
    { result := none, error := none }
  let raised : Except ε (Option α) :=
    match out.1.error with
    | some e => .error e
    | none => .ok out.1.result
  (raised, out.2.1)

/-- The execute_request wrapper swallows the callable's exception before the
retry loop can observe it, so every submitted callable is invoked exactly
once, whatever it does. -/
theorem request_queue_add_invokes_once {α ε : Type} (call : ℕ → Except ε α) :
    (request_queue_add call).2 = 1 := by
  show (execute_with_retry (fun k c => execute_request (call k) c) (3 + 1) 0
    { result := none, error := none }).2.1 = 1
  simp only [execute_with_retry]
  cases h0 : call 0 <;> rfl

/-- C4: a task whose underlying callable raises on every invocation is invoked
at most 3 times in total by the queue (in fact exactly once, because the
execute_request wrapper catches the exception before the retry loop sees it),
and the original error raised by the callable is raised to the submitter by
RequestQueue.add. -/
theorem request_queue_add_failing_task {α ε : Type} (e : ε) (call : ℕ → Except ε α)
    (hfail : ∀ k, call k = .error e) :
    (request_queue_add call).2 ≤ 3 ∧ (request_queue_add call).1 = .error e := by
  have h1 : execute_with_retry (fun k c => execute_request (call k) c) (3 + 1) 0
      ({ result := none, error := none } : TaskCell α ε) =
      ({ result := none, error := some e }, 1, false) := by
    simp only [execute_with_retry]
    rw [hfail 0]
    rfl
  constructor
  · show (execute_with_retry (fun k c => execute_request (call k) c) (3 + 1) 0
      { result := none, error := none }).2.1 ≤ 3
    rw [h1]
    show (1 : ℕ) ≤ 3
    omega
  · show (match (execute_with_retry (fun k c => execute_request (call k) c) (3 + 1) 0
        ({ result := none, error := none } : TaskCell α ε)).1.error with
      | some e => (Except.error e : Except ε (Option α))
      | none => .ok (execute_with_retry (fun k c => execute_request (call k) c) (3 + 1) 0
          ({ result := none, error := none } : TaskCell α ε)).1.result) = .error e
    rw [h1]

/-- Witness for C4 at a callable that always raises error 7. -/
theorem request_queue_add_failing_task_witness :
    (request_queue_add (fun _ => (.error 7 : Except ℕ ℕ))).2 ≤ 3
    ∧ (request_queue_add (fun _ => (.error 7 : Except ℕ ℕ))).1 = .error 7 :=
  request_queue_add_failing_task 7 (fun _ => .error 7) (fun _ => rfl)

/-! Thread resolution for inbound mentions
(ConversationTracker.add_mention). -/

/-- The fields of a mention object that add_mention reads (created_at may be
missing, in which case the current time is substituted). -/
structure Mention where
  id : String
  username : String
  text : String
  created_at : Option String
  in_reply_to : Option String
deriving DecidableEq, Repr

/-- The message record add_mention appends for an inbound mention. -/
def mention_message (now_iso : String) (m : Mention) : Message :=
  { tweet_id := m.id, sender := m.username, text := m.text,
    timestamp := m.created_at.getD now_iso, is_reply_to := m.in_reply_to }

/-- The composite key of a freshly created thread:
f-string int(time.time())_username_tweet-id. -/
def composite_thread_id (now_epoch : ℕ) (m : Mention) : String :=
  toString now_epoch ++ "_" ++ m.username ++ "_" ++ m.id

/-- The fallback scan of add_mention: walk all threads in insertion order and
each thread's messages for one whose tweet_id equals the reply-to id.  A match
assigns the thread's key to the Python thread_id variable and breaks the inner
loop, but the outer break is guarded by the truthiness of thread_id, so a
falsy (empty-string) key lets the outer loop continue with the assignment
sticking. -/
def scan_threads (reply_to : String) : ConversationStore → Option String → Option String
  | [], acc => acc
  | (k, t) :: rest, acc =>
    if t.messages.any (fun msg => msg.tweet_id = reply_to) then
      if k = "" then scan_threads reply_to rest (some k)
      else some k
    else scan_threads reply_to rest acc

/-- In-place append of a message to an existing thread
(self.conversations[thread_id]["messages"].append(message)); at every call
site the thread id is present in the store. -/
def append_message (store : ConversationStore) (tid : String) (msg : Message) :
    ConversationStore :=
  match Dict.lookup store tid with
  | some t => Dict.insert store tid { t with messages := t.messages ++ [msg] }
  | none => store

/-- The user-field repair performed on a direct thread hit: a thread whose
user field is still null (a bot-original thread nobody replied to yet) records
the mention's sender. -/
def user_fix (store : ConversationStore) (tid username : String) : ConversationStore :=
  match Dict.lookup store tid with
  | some t =>
    if t.user = none then Dict.insert store tid { t with user := some username }
    else store
  | none => store

/-- ConversationTracker.add_mention, acting on the in-memory store as it
stands after the force-reload from disk: when the reply-to id is truthy, first
try the direct lookup of the derived id conversation_(reply-to), recording the
sender in a null user field on a direct hit; failing that, run the linear
message scan; when no thread is found (the resolved id is None or falsy), open
a new thread under the epoch_sender_id composite key; finally append the
mention's message to the resolved thread and return its id. -/
def add_mention (now_iso : String) (now_epoch : ℕ) (store0 : ConversationStore)
    (m : Mention) : ConversationStore × String :=
  let msg := mention_message now_iso m
  let direct : Option String :=
    match m.in_reply_to with
    | some r =>
      if r = "" then none
      else if Dict.containsKey store0 ("conversation_" ++ r) then
        some ("conversation_" ++ r)
      else none
    | none => none
  let store1 : ConversationStore :=
    match direct with
    | some tid => user_fix store0 tid m.username
    | none => store0
  let resolved : Option String :=
    match direct with
    | some tid => some tid
    | none =>
      match m.in_reply_to with
      | some r => if r = "" then none else scan_threads r store1 none
      | none => none
  let createNew : ConversationStore × String :=
    let new_tid := composite_thread_id now_epoch m
    let store2 := Dict.insert store1 new_tid
      { user := some m.username, started_at := now_iso, messages := [] }
    (append_message store2 new_tid msg, new_tid)
  match resolved with
  | some tid => if tid = "" then createNew else (append_message store1 tid msg, tid)
  | none => createNew

/-- Specification-side reading of the scan: the first thread in scan order
holding a message whose tweet_id equals the reply-to id. -/
def first_matching_thread (store : ConversationStore) (reply_to : String) :
    Option String :=
  (store.find? (fun p => p.2.messages.any (fun msg => msg.tweet_id = reply_to))).map
    (fun p => p.1)

theorem conversation_key_ne_empty (r : String) : ("conversation_" ++ r) ≠ "" := by
  intro h
  have hl := congrArg String.length h
  rw [String.length_append] at hl
  have h13 : ("conversation_" : String).length = 13 := rfl
  have h0 : ("" : String).length = 0 := rfl
  rw [h13, h0] at hl
  omega

theorem Dict.keys_insert_of_containsKey {α : Type} (d : Dict α) (k : String) (v : α)
    (h : Dict.containsKey d k = true) :
    (Dict.insert d k v).map Prod.fst = d.map Prod.fst := by
  unfold Dict.insert
  rw [if_pos h]
  clear h
  induction d with
  | nil => rfl
  | cons p rest ih =>
    obtain ⟨k₁, v₁⟩ := p
    rw [List.map_cons, List.map_cons, List.map_cons]
    by_cases hk : k₁ = k
    · subst hk
      rw [if_pos (show ((k₁, v₁) : String × α).1 = k₁ from rfl)]
      rw [ih]
    · rw [if_neg (show ¬ ((k₁, v₁) : String × α).1 = k from hk)]
      rw [ih]

theorem Dict.keys_insert_of_not_containsKey {α : Type} (d : Dict α) (k : String) (v : α)
    (h : Dict.containsKey d k = false) :
    (Dict.insert d k v).map Prod.fst = d.map Prod.fst ++ [k] := by
  unfold Dict.insert
  rw [h]
  simp

theorem Dict.lookup_of_find? {α : Type} (d : Dict α) (p : String × α → Bool)
    (k : String) (v : α) (hnodup : (d.map Prod.fst).Nodup)
    (h : d.find? p = some (k, v)) : Dict.lookup d k = some v := by
  induction d with
  | nil => simp at h
  | cons q rest ih =>
    obtain ⟨k₁, v₁⟩ := q
    rw [List.map_cons, List.nodup_cons] at hnodup
    by_cases hp : p (k₁, v₁) = true
    · rw [List.find?_cons_of_pos _ hp] at h
      injection h with h'
      cases h'
      simp [Dict.lookup]
    · rw [List.find?_cons_of_neg _ hp] at h
      have hkmem : (k, v) ∈ rest := List.mem_of_find?_eq_some h
      have hk1 : ¬ k₁ = k := by
        intro he
        subst he
        have hmem : Prod.fst ((k₁, v) : String × α) ∈ List.map Prod.fst rest :=
          List.mem_map_of_mem Prod.fst hkmem
        exact hnodup.1 hmem
      simp only [Dict.lookup, hk1, if_false]
      exact ih hnodup.2 h

theorem scan_threads_eq_first_matching (r : String) (store : ConversationStore)
    (hkeys : ∀ p ∈ store, p.1 ≠ "") :
    scan_threads r store none = first_matching_thread store r := by
  induction store with
  | nil => rfl
  | cons q rest ih =>
    obtain ⟨k, t⟩ := q
    have hk : k ≠ "" := hkeys (k, t) (List.mem_cons_self _ _)
    have hrest : ∀ p ∈ rest, p.1 ≠ "" := fun p hp => hkeys p (List.mem_cons_of_mem _ hp)
    by_cases hm : (t.messages.any (fun msg => msg.tweet_id = r)) = true
    · unfold scan_threads first_matching_thread
      rw [if_pos hm, if_neg hk]
      simp only [List.find?, hm]
      rfl
    · unfold scan_threads first_matching_thread
      rw [if_neg hm]
      rw [Bool.not_eq_true] at hm
      simp only [List.find?, hm]
      exact ih hrest

theorem append_message_lookup (store : ConversationStore) (tid : String)
    (msg : Message) (t : Thread) (h : Dict.lookup store tid = some t) :
    Dict.lookup (append_message store tid msg) tid =
      some { t with messages := t.messages ++ [msg] } := by
  unfold append_message
  rw [h]
  exact Dict.lookup_insert_self _ _ _

theorem append_message_keys (store : ConversationStore) (tid : String)
    (msg : Message) (t : Thread) (h : Dict.lookup store tid = some t) :
    (append_message store tid msg).map Prod.fst = store.map Prod.fst := by
  unfold append_message
  rw [h]
  exact Dict.keys_insert_of_containsKey _ _ _
    (by rw [Dict.containsKey_eq_isSome_lookup, h]; rfl)

theorem user_fix_lookup (store : ConversationStore) (tid username : String)
    (t : Thread) (h : Dict.lookup store tid = some t) :
    ∃ t', Dict.lookup (user_fix store tid username) tid = some t'
      ∧ t'.messages = t.messages := by
  have hfix : user_fix store tid username =
      (if t.user = none then Dict.insert store tid { t with user := some username }
       else store) := by
    unfold user_fix
    rw [h]
  rw [hfix]
  by_cases hu : t.user = none
  · rw [if_pos hu]
    exact ⟨{ t with user := some username }, Dict.lookup_insert_self _ _ _, rfl⟩
  · rw [if_neg hu]
    exact ⟨t, h, rfl⟩

theorem user_fix_keys (store : ConversationStore) (tid username : String) :
    (user_fix store tid username).map Prod.fst = store.map Prod.fst := by
  cases h : Dict.lookup store tid with
  | none =>
    have hfix : user_fix store tid username = store := by
      unfold user_fix
      rw [h]
    rw [hfix]
  | some t =>
    have hfix : user_fix store tid username =
        (if t.user = none then Dict.insert store tid { t with user := some username }
         else store) := by
      unfold user_fix
      rw [h]
    rw [hfix]
    by_cases hu : t.user = none
    · rw [if_pos hu]
      exact Dict.keys_insert_of_containsKey _ _ _
        (by rw [Dict.containsKey_eq_isSome_lookup, h]; rfl)
    · rw [if_neg hu]

theorem add_mention_eq_direct (now_iso : String) (now_epoch : ℕ)
    (store : ConversationStore) (m : Mention) (r : String)
    (hr : m.in_reply_to = some r) (hrne : ¬ r = "")
    (hcont : Dict.containsKey store ("conversation_" ++ r) = true) :
    add_mention now_iso now_epoch store m =
      (append_message (user_fix store ("conversation_" ++ r) m.username)
        ("conversation_" ++ r) (mention_message now_iso m),
       "conversation_" ++ r) := by
  simp [add_mention, hr, hrne, hcont, conversation_key_ne_empty r]

theorem add_mention_eq_scan (now_iso : String) (now_epoch : ℕ)
    (store : ConversationStore) (m : Mention) (r tid : String)
    (hr : m.in_reply_to = some r) (hrne : ¬ r = "")
    (hcont : Dict.containsKey store ("conversation_" ++ r) = false)
    (hscan : scan_threads r store none = some tid) (htid : ¬ tid = "") :
    add_mention now_iso now_epoch store m =
      (append_message store tid (mention_message now_iso m), tid) := by
  simp [add_mention, hr, hrne, hcont, hscan, htid, user_fix]

theorem add_mention_eq_new_of_scan_none (now_iso : String) (now_epoch : ℕ)
    (store : ConversationStore) (m : Mention) (r : String)
    (hr : m.in_reply_to = some r) (hrne : ¬ r = "")
    (hcont : Dict.containsKey store ("conversation_" ++ r) = false)
    (hscan : scan_threads r store none = none) :
    add_mention now_iso now_epoch store m =
      (append_message
        (Dict.insert store (composite_thread_id now_epoch m)
          { user := some m.username, started_at := now_iso, messages := [] })
        (composite_thread_id now_epoch m) (mention_message now_iso m),
       composite_thread_id now_epoch m) := by
  simp [add_mention, hr, hrne, hcont, hscan, user_fix]

theorem add_mention_eq_new_of_no_reply (now_iso : String) (now_epoch : ℕ)
    (store : ConversationStore) (m : Mention) (hr : m.in_reply_to = none) :
    add_mention now_iso now_epoch store m =
      (append_message
        (Dict.insert store (composite_thread_id now_epoch m)
          { user := some m.username, started_at := now_iso, messages := [] })
        (composite_thread_id now_epoch m) (mention_message now_iso m),
       composite_thread_id now_epoch m) := by
  simp [add_mention, hr]

/-- C6: thread resolution of add_mention, on a store whose thread ids are
non-empty and distinct (as all program-written stores are) and a mention whose
reply-to id, when present, is a non-empty tweet id.  A reply-to id equal to
the derived id conversation_(reply-to) of an existing thread appends the
mention's message to that thread and creates no thread; otherwise a reply-to
id equal to the tweet_id of a message recorded in some thread appends to the
first such thread in scan order, again creating no thread; and a reply-to id
that matches nothing, or an absent one, creates a new thread under the
timestamp_sender_id composite key holding exactly the new message. -/
theorem add_mention_thread_resolution (now_iso : String) (now_epoch : ℕ)
    (store : ConversationStore) (m : Mention)
    (hkeys : ∀ p ∈ store, p.1 ≠ "")
    (hnodup : (store.map Prod.fst).Nodup)
    (hreply : m.in_reply_to ≠ some "") :
    (∀ r, m.in_reply_to = some r →
      (∀ t, Dict.lookup store ("conversation_" ++ r) = some t →
        (add_mention now_iso now_epoch store m).2 = "conversation_" ++ r
        ∧ (∃ t1, Dict.lookup (add_mention now_iso now_epoch store m).1
              ("conversation_" ++ r) = some t1
            ∧ t1.messages = t.messages ++ [mention_message now_iso m])
        ∧ (add_mention now_iso now_epoch store m).1.map Prod.fst = store.map Prod.fst)
      ∧ (∀ tid, Dict.containsKey store ("conversation_" ++ r) = false →
          first_matching_thread store r = some tid →
          (add_mention now_iso now_epoch store m).2 = tid
          ∧ (∃ t t1, Dict.lookup store tid = some t
              ∧ Dict.lookup (add_mention now_iso now_epoch store m).1 tid = some t1
              ∧ t1.messages = t.messages ++ [mention_message now_iso m])
          ∧ (add_mention now_iso now_epoch store m).1.map Prod.fst = store.map Prod.fst)
      ∧ (Dict.containsKey store ("conversation_" ++ r) = false →
          first_matching_thread store r = none →
          Dict.containsKey store (composite_thread_id now_epoch m) = false →
          (add_mention now_iso now_epoch store m).2 = composite_thread_id now_epoch m
          ∧ Dict.lookup (add_mention now_iso now_epoch store m).1
              (composite_thread_id now_epoch m) =
            some { user := some m.username, started_at := now_iso,
                   messages := [mention_message now_iso m] }
          ∧ (add_mention now_iso now_epoch store m).1.map Prod.fst =
              store.map Prod.fst ++ [composite_thread_id now_epoch m]))
    ∧ (m.in_reply_to = none →
        Dict.containsKey store (composite_thread_id now_epoch m) = false →
        (add_mention now_iso now_epoch store m).2 = composite_thread_id now_epoch m
        ∧ Dict.lookup (add_mention now_iso now_epoch store m).1
            (composite_thread_id now_epoch m) =
          some { user := some m.username, started_at := now_iso,
                 messages := [mention_message now_iso m] }
        ∧ (add_mention now_iso now_epoch store m).1.map Prod.fst =
            store.map Prod.fst ++ [composite_thread_id now_epoch m]) := by
  constructor
  · intro r hr
    have hrne : ¬ r = "" := fun he => hreply (by rw [hr, he])
    refine ⟨?_, ?_, ?_⟩
    · intro t hlook
      have hcont : Dict.containsKey store ("conversation_" ++ r) = true := by
        rw [Dict.containsKey_eq_isSome_lookup, hlook]; rfl
      rw [add_mention_eq_direct now_iso now_epoch store m r hr hrne hcont]
      obtain ⟨t', ht', htm⟩ :=
        user_fix_lookup store ("conversation_" ++ r) m.username t hlook
      refine ⟨rfl, ⟨{ t' with messages := t'.messages ++ [mention_message now_iso m] },
        append_message_lookup _ _ _ t' ht', by rw [htm]⟩, ?_⟩
      rw [append_message_keys _ _ _ t' ht', user_fix_keys]
    · intro tid hcont hfirst
      obtain ⟨q, hq, hq1⟩ : ∃ q, store.find?
          (fun p => p.2.messages.any (fun msg => msg.tweet_id = r)) = some q
          ∧ q.1 = tid := by
        unfold first_matching_thread at hfirst
        cases hfq : store.find?
            (fun p => p.2.messages.any (fun msg => msg.tweet_id = r)) with
        | none => rw [hfq] at hfirst; simp at hfirst
        | some q =>
          rw [hfq] at hfirst
          exact ⟨q, rfl, by simpa using hfirst⟩
      obtain ⟨ktid, t⟩ := q
      cases hq1
      have hlook : Dict.lookup store ktid = some t :=
        Dict.lookup_of_find? store _ ktid t hnodup hq
      have htid : ¬ ktid = "" := hkeys (ktid, t) (List.mem_of_find?_eq_some hq)
      have hscan : scan_threads r store none = some ktid := by
        rw [scan_threads_eq_first_matching r store hkeys]
        exact hfirst
      rw [add_mention_eq_scan now_iso now_epoch store m r ktid hr hrne hcont hscan htid]
      refine ⟨rfl, ⟨t, { t with messages := t.messages ++ [mention_message now_iso m] },
        hlook, append_message_lookup _ _ _ t hlook, rfl⟩, ?_⟩
      rw [append_message_keys _ _ _ t hlook]
    · intro hcont hfirst hfresh
      have hscan : scan_threads r store none = none := by
        rw [scan_threads_eq_first_matching r store hkeys]
        exact hfirst
      rw [add_mention_eq_new_of_scan_none now_iso now_epoch store m r hr hrne hcont hscan]
      have hlook2 : Dict.lookup
          (Dict.insert store (composite_thread_id now_epoch m)
            { user := some m.username, started_at := now_iso, messages := [] })
          (composite_thread_id now_epoch m) =
          some { user := some m.username, started_at := now_iso, messages := [] } :=
        Dict.lookup_insert_self _ _ _
      refine ⟨rfl, ?_, ?_⟩
      · exact append_message_lookup _ _ _ _ hlook2
      · rw [append_message_keys _ _ _ _ hlook2,
          Dict.keys_insert_of_not_containsKey _ _ _ hfresh]
  · intro hr hfresh
    rw [add_mention_eq_new_of_no_reply now_iso now_epoch store m hr]
    have hlook2 : Dict.lookup
        (Dict.insert store (composite_thread_id now_epoch m)
          { user := some m.username, started_at := now_iso, messages := [] })
        (composite_thread_id now_epoch m) =
        some { user := some m.username, started_at := now_iso, messages := [] } :=
      Dict.lookup_insert_self _ _ _
    refine ⟨rfl, ?_, ?_⟩
    · exact append_message_lookup _ _ _ _ hlook2
    · rw [append_message_keys _ _ _ _ hlook2,
        Dict.keys_insert_of_not_containsKey _ _ _ hfresh]

/-- A bot-original thread (user still null) whose derived id is
conversation_50. -/
def threadA : Thread :=
  { user := none, started_at := "2024",
    messages := [{ tweet_id := "50", sender := "bot", text := "first",
                   timestamp := "2024", is_reply_to := none }] }

/-- A mention-created thread holding tweet 60. -/
def threadB : Thread :=
  { user := some "bob", started_at := "2024",
    messages := [{ tweet_id := "60", sender := "bob", text := "hey",
                   timestamp := "2024", is_reply_to := none }] }

/-- Sample store for exercising the three add_mention resolution paths. -/
def storeW : ConversationStore := [("conversation_50", threadA), ("t2", threadB)]

/-- A reply to tweet 50: resolves directly via the derived thread id. -/
def mentionA : Mention :=
  { id := "101", username := "alice", text := "re", created_at := some "2024",
    in_reply_to := some "50" }

/-- A reply to tweet 60: resolves through the message scan. -/
def mentionB : Mention :=
  { id := "102", username := "carol", text := "re2", created_at := some "2024",
    in_reply_to := some "60" }

/-- A mention with no reply-to id: opens a new thread. -/
def mentionC : Mention :=
  { id := "103", username := "dan", text := "new", created_at := some "2024",
    in_reply_to := none }

/-- Witness for C6 on the sample store: the direct hit, the scan hit, and the
new-thread case. -/
theorem add_mention_thread_resolution_witness :
    ((add_mention "2024" 7 storeW mentionA).2 = "conversation_" ++ "50"
      ∧ (∃ t1, Dict.lookup (add_mention "2024" 7 storeW mentionA).1
            ("conversation_" ++ "50") = some t1
          ∧ t1.messages = threadA.messages ++ [mention_message "2024" mentionA])
      ∧ (add_mention "2024" 7 storeW mentionA).1.map Prod.fst = storeW.map Prod.fst)
    ∧ ((add_mention "2024" 7 storeW mentionB).2 = "t2"
      ∧ (∃ t t1, Dict.lookup storeW "t2" = some t
          ∧ Dict.lookup (add_mention "2024" 7 storeW mentionB).1 "t2" = some t1
          ∧ t1.messages = t.messages ++ [mention_message "2024" mentionB])
      ∧ (add_mention "2024" 7 storeW mentionB).1.map Prod.fst = storeW.map Prod.fst)
    ∧ ((add_mention "2024" 7 storeW mentionC).2 = composite_thread_id 7 mentionC
      ∧ Dict.lookup (add_mention "2024" 7 storeW mentionC).1
          (composite_thread_id 7 mentionC) =
        some { user := some "dan", started_at := "2024",
               messages := [mention_message "2024" mentionC] }
      ∧ (add_mention "2024" 7 storeW mentionC).1.map Prod.fst =
          storeW.map Prod.fst ++ [composite_thread_id 7 mentionC]) :=
  ⟨((add_mention_thread_resolution "2024" 7 storeW mentionA (by decide) (by decide)
      (by decide)).1 "50" rfl).1 threadA (by decide),
   ((add_mention_thread_resolution "2024" 7 storeW mentionB (by decide) (by decide)
      (by decide)).1 "60" rfl).2.1 "t2" (by decide) (by decide),
   (add_mention_thread_resolution "2024" 7 storeW mentionC (by decide) (by decide)
      (by decide)).2 rfl (by decide)⟩

/-! Mention processing and idempotence
(src/maistro/integrations/twitter/mentions.py). -/

/-- Observable side effects of processing one mention, each tagged with the
mention id it concerns: the conversation-tracker append, the reply-generation
call, the posted reply, the bot-reply append, and the processed-set update. -/
inductive MentionEvent
  | addMention (id : String)
  | replyGen (id : String)
  | postReply (id : String)
  | botReply (id : String)
  | markProcessed (id : String)
deriving DecidableEq, Repr

/-- The mention id an event concerns. -/
def MentionEvent.mid : MentionEvent → String
  | .addMention i => i
  | .replyGen i => i
  | .postReply i => i
  | .botReply i => i
  | .markProcessed i => i

/-- Python set.add on the processed-id set. -/
def insert_id (s : List String) (id : String) : List String :=
  if id ∈ s then s else id :: s

/-- MentionsHandler.process_mention: the membership check against the
processed set is the first statement, before any side effect, so a mention
whose id is already processed returns False with the state untouched and an
empty effect trace.  Otherwise the pipeline runs (tracker append, reply
generation, posting, bot-reply append, processed-set update); the environment
oracle `ok` says whether the pipeline completes for this mention, and `fx`
gives the partial effect trace of a failed pipeline, whose exception is caught
and turned into False with the processed set untouched.  Returns (new
processed set, success, effect trace). -/
def process_mention (ok : Mention → Bool) (fx : Mention → List MentionEvent)
    (s : List String) (m : Mention) : List String × Bool × List MentionEvent :=
  if m.id ∈ s then (s, false, [])
  else if ok m then
    (insert_id s m.id, true,
      [.addMention m.id, .replyGen m.id, .postReply m.id, .botReply m.id,
       .markProcessed m.id])
  else (s, false, fx m)

/-- MentionsHandler.check_mentions over an already-fetched mention list: each
mention whose id is in the processed set is skipped by the loop's own check,
the rest go through process_mention, and the successes are counted.  Returns
(new processed set, processed count, effect trace). -/
def check_mentions (ok : Mention → Bool) (fx : Mention → List MentionEvent) :
    List Mention → List String → List String × ℕ × List MentionEvent
  | [], s => (s, 0, [])
  | m :: rest, s =>
    if m.id ∈ s then check_mentions ok fx rest s
    else
      let p := process_mention ok fx s m
      let q := check_mentions ok fx rest p.1
      (q.1, (if p.2.1 then 1 else 0) + q.2.1, p.2.2 ++ q.2.2)

theorem mem_insert_id (s : List String) (id id' : String) (h : id ∈ s) :
    id ∈ insert_id s id' := by
  unfold insert_id
  split
  · exact h
  · exact List.mem_cons_of_mem _ h

theorem mem_insert_id_self (s : List String) (id : String) : id ∈ insert_id s id := by
  unfold insert_id
  split
  · assumption
  · exact List.mem_cons_self _ _

theorem mem_process_mention (ok : Mention → Bool) (fx : Mention → List MentionEvent)
    (s : List String) (m : Mention) (id : String) (h : id ∈ s) :
    id ∈ (process_mention ok fx s m).1 := by
  unfold process_mention
  split
  · exact h
  · split
    · exact mem_insert_id s id m.id h
    · exact h

theorem mem_check_mentions (ok : Mention → Bool) (fx : Mention → List MentionEvent) :
    ∀ (ms : List Mention) (s : List String) (id : String), id ∈ s →
      id ∈ (check_mentions ok fx ms s).1 := by
  intro ms
  induction ms with
  | nil => intro s id h; exact h
  | cons m rest ih =>
    intro s id h
    unfold check_mentions
    split
    · exact ih s id h
    · exact ih _ id (mem_process_mention ok fx s m id h)

theorem ok_mem_check_mentions (ok : Mention → Bool) (fx : Mention → List MentionEvent) :
    ∀ (ms : List Mention) (s : List String) (m : Mention), m ∈ ms → ok m = true →
      m.id ∈ (check_mentions ok fx ms s).1 := by
  intro ms
  induction ms with
  | nil => intro s m h; cases h
  | cons m' rest ih =>
    intro s m hmem hok
    unfold check_mentions
    cases hmem with
    | head =>
      split
      · exact mem_check_mentions ok fx rest s m'.id (by assumption)
      · refine mem_check_mentions ok fx rest _ m'.id ?_
        unfold process_mention
        rw [if_neg (by assumption), if_pos hok]
        exact mem_insert_id_self s m'.id
    | tail _ hmem' =>
      split
      · exact ih s m hmem' hok
      · exact ih _ m hmem' hok

theorem check_mentions_count_zero (ok : Mention → Bool)
    (fx : Mention → List MentionEvent) :
    ∀ (ms : List Mention) (s : List String),
      (∀ m ∈ ms, ok m = true → m.id ∈ s) →
      (check_mentions ok fx ms s).2.1 = 0 := by
  intro ms
  induction ms with
  | nil => intro s _; rfl
  | cons m rest ih =>
    intro s hs
    unfold check_mentions
    split
    · exact ih s (fun m' hm' => hs m' (List.mem_cons_of_mem _ hm'))
    · have hok : ok m = false := by
        cases hok : ok m with
        | false => rfl
        | true => exact absurd (hs m (List.mem_cons_self _ _) hok) (by assumption)
      have hp : process_mention ok fx s m = (s, false, fx m) := by
        unfold process_mention
        rw [if_neg (by assumption), if_neg (by rw [hok]; exact Bool.false_ne_true)]
      simp only [hp]
      rw [ih s (fun m' hm' => hs m' (List.mem_cons_of_mem _ hm'))]
      rfl

theorem check_mentions_trace_mid (ok : Mention → Bool)
    (fx : Mention → List MentionEvent)
    (hfx : ∀ m, ∀ e ∈ fx m, MentionEvent.mid e = m.id) :
    ∀ (ms : List Mention) (s : List String) (id : String), id ∈ s →
      ∀ e ∈ (check_mentions ok fx ms s).2.2, MentionEvent.mid e ≠ id := by
  intro ms
  induction ms with
  | nil => intro s id _ e he; cases he
  | cons m rest ih =>
    intro s id hid e he
    unfold check_mentions at he
    by_cases hm : m.id ∈ s
    · rw [if_pos hm] at he
      exact ih s id hid e he
    · rw [if_neg hm] at he
      simp only [List.mem_append] at he
      cases he with
      | inl hp =>
        have hne : m.id ≠ id := fun hcontra => hm (hcontra ▸ hid)
        unfold process_mention at hp
        rw [if_neg hm] at hp
        by_cases hok : ok m = true
        · rw [if_pos hok] at hp
          simp only [List.mem_cons, List.not_mem_nil, or_false] at hp
          rcases hp with h | h | h | h | h <;> (subst h; exact hne)
        · rw [if_neg hok] at hp
          rw [hfx m e hp]
          exact hne
      | inr hq =>
        exact ih (process_mention ok fx s m).1 id
          (mem_process_mention ok fx s m id hid) e hq

/-- C2: re-processing known mentions is a no-op.  With a fixed environment (no
new inbound mentions, each mention's pipeline outcome unchanged), a second
check_mentions over the same fetched list processes 0 new items; and a mention
whose id is in the processed set contributes no side effect at all — in
particular it is never passed to the reply-generation step — because the
membership check precedes every side effect of processing it. -/
theorem check_mentions_idempotent (ok : Mention → Bool)
    (fx : Mention → List MentionEvent) (mentions : List Mention) (s₀ : List String)
    (hfx : ∀ m, ∀ e ∈ fx m, MentionEvent.mid e = m.id) :
    (check_mentions ok fx mentions (check_mentions ok fx mentions s₀).1).2.1 = 0
    ∧ (∀ id ∈ s₀,
        MentionEvent.replyGen id ∉ (check_mentions ok fx mentions s₀).2.2) := by
  constructor
  · exact check_mentions_count_zero ok fx mentions _
      (fun m hm hok => ok_mem_check_mentions ok fx mentions s₀ m hm hok)
  · intro id hid hmem
    exact check_mentions_trace_mid ok fx hfx mentions s₀ id hid _ hmem rfl

/-- Witness for C2: one already-processed mention, an always-succeeding
pipeline; the second pass processes 0 items and the reply generator is never
reached for the processed id. -/
theorem check_mentions_idempotent_witness :
    (check_mentions (fun _ => true) (fun _ => []) [mentionA]
        (check_mentions (fun _ => true) (fun _ => []) [mentionA] ["101"]).1).2.1 = 0
    ∧ MentionEvent.replyGen "101" ∉
        (check_mentions (fun _ => true) (fun _ => []) [mentionA] ["101"]).2.2 :=
  ⟨(check_mentions_idempotent (fun _ => true) (fun _ => []) [mentionA] ["101"]
      (fun _ e he => nomatch he)).1,
   (check_mentions_idempotent (fun _ => true) (fun _ => []) [mentionA] ["101"]
      (fun _ e he => nomatch he)).2 "101" (by decide)⟩

/-! Request queue interleaving semantics (RequestQueue.add /
RequestQueue._process_queue in src/maistro/integrations/twitter/utils.py):
the lock-protected critical sections of the Python code are the atomic
transitions; any number of submitter and processor threads interleave. -/

/-- Phase of one live processor thread spawned by RequestQueue.add. -/
inductive ProcPhase
  | entered
  | looping
  | executing (task : ℕ)
deriving DecidableEq, Repr

/-- Global state of one RequestQueue: the pending task list and processing
flag (both guarded by self.lock), the phases of the live processor threads,
and the history variables submitted (every task in submission order) and
execLog (tasks in the order their execution began). -/
structure QueueState where
  pending : List ℕ
  processing : Bool
  procs : List ProcPhase
  execLog : List ℕ
  submitted : List ℕ
deriving DecidableEq, Repr

/-- The queue as constructed by RequestQueue.__init__. -/
def initQueue : QueueState :=
  { pending := [], processing := false, procs := [], execLog := [], submitted := [] }

/-- One atomic step of the queue system.
submit: the locked section of add — append the wrapped task and, when the
processing flag is down, spawn a processor thread.
enterOwn / enterExit: the locked entry check of _process_queue — claim the
flag, or leave at once because another processor holds it.
popTask / popEmpty: the locked section at the top of the worker loop — pop the
head task and start executing it, or drop the flag and exit on an empty queue.
finish: the execution step of the popped task completes and the worker loops
(the natural delay is invisible here). -/
inductive QStep : QueueState → QueueState → Prop
  | submit (s : QueueState) (t : ℕ) :
      QStep s { s with
        pending := s.pending ++ [t],
        submitted := s.submitted ++ [t],
        procs := if s.processing then s.procs else s.procs ++ [ProcPhase.entered] }
  | enterOwn (s : QueueState) (l₁ l₂ : List ProcPhase)
      (h : s.procs = l₁ ++ ProcPhase.entered :: l₂) (hp : s.processing = false) :
      QStep s { s with processing := true, procs := l₁ ++ ProcPhase.looping :: l₂ }
  | enterExit (s : QueueState) (l₁ l₂ : List ProcPhase)
      (h : s.procs = l₁ ++ ProcPhase.entered :: l₂) (hp : s.processing = true) :
      QStep s { s with procs := l₁ ++ l₂ }
  | popTask (s : QueueState) (l₁ l₂ : List ProcPhase) (t : ℕ) (rest : List ℕ)
      (h : s.procs = l₁ ++ ProcPhase.looping :: l₂) (hq : s.pending = t :: rest) :
      QStep s { s with
        pending := rest,
        procs := l₁ ++ ProcPhase.executing t :: l₂,
        execLog := s.execLog ++ [t] }
  | popEmpty (s : QueueState) (l₁ l₂ : List ProcPhase)
      (h : s.procs = l₁ ++ ProcPhase.looping :: l₂) (hq : s.pending = []) :
      QStep s { s with processing := false, procs := l₁ ++ l₂ }
  | finish (s : QueueState) (l₁ l₂ : List ProcPhase) (t : ℕ)
      (h : s.procs = l₁ ++ ProcPhase.executing t :: l₂) :
      QStep s { s with procs := l₁ ++ ProcPhase.looping :: l₂ }

/-- States reachable from the fresh queue by any interleaving. -/
def QReachable (s : QueueState) : Prop :=
  Relation.ReflTransGen QStep initQueue s

/-- A processor thread that has claimed the processing flag. -/
def ProcPhase.isOwner : ProcPhase → Bool
  | .entered => false
  | .looping => true
  | .executing _ => true

/-- A processor thread currently inside a task's execution step. -/
def ProcPhase.isExec : ProcPhase → Bool
  | .executing _ => true
  | _ => false

/-- The inductive invariant: the processing flag counts exactly the processor
threads past the entry check, and the execution log followed by the pending
tasks is the submission sequence. -/
def QInv (s : QueueState) : Prop :=
  s.procs.countP ProcPhase.isOwner = (if s.processing then 1 else 0)
  ∧ s.execLog ++ s.pending = s.submitted

theorem qinv_step {s s' : QueueState} (hinv : QInv s) (hstep : QStep s s') :
    QInv s' := by
  obtain ⟨hcount, hfifo⟩ := hinv
  cases hstep with
  | submit t =>
    refine ⟨?_, ?_⟩
    · cases hp : s.processing with
      | true => simpa [hp] using hcount
      | false =>
        rw [hp] at hcount
        simp [hp, List.countP_append, ProcPhase.isOwner, hcount, List.countP_cons]
    · show s.execLog ++ (s.pending ++ [t]) = s.submitted ++ [t]
      rw [← List.append_assoc, hfifo]
  | enterOwn l₁ l₂ h hp =>
    refine ⟨?_, hfifo⟩
    rw [h, hp] at hcount
    simp [List.countP_append, List.countP_cons, ProcPhase.isOwner,
      -List.countP_eq_zero] at hcount ⊢
    omega
  | enterExit l₁ l₂ h hp =>
    refine ⟨?_, hfifo⟩
    rw [h] at hcount
    simp [List.countP_append, List.countP_cons, ProcPhase.isOwner, hp,
      -List.countP_eq_zero] at hcount ⊢
    omega
  | popTask l₁ l₂ t rest h hq =>
    refine ⟨?_, ?_⟩
    · rw [h] at hcount
      simp [List.countP_append, List.countP_cons, ProcPhase.isOwner,
        -List.countP_eq_zero] at hcount ⊢
      omega
    · show (s.execLog ++ [t]) ++ rest = s.submitted
      rw [List.append_assoc]
      show s.execLog ++ (t :: rest) = s.submitted
      rw [← hq, hfifo]
  | popEmpty l₁ l₂ h hq =>
    refine ⟨?_, hfifo⟩
    rw [h] at hcount
    cases hp : s.processing with
    | false =>
      rw [hp] at hcount
      simp [List.countP_append, List.countP_cons, ProcPhase.isOwner,
        -List.countP_eq_zero] at hcount
    | true =>
      rw [hp] at hcount
      simp [List.countP_append, List.countP_cons, ProcPhase.isOwner,
        -List.countP_eq_zero] at hcount ⊢
      omega
  | finish l₁ l₂ t h =>
    refine ⟨?_, hfifo⟩
    rw [h] at hcount
    simp [List.countP_append, List.countP_cons, ProcPhase.isOwner,
      -List.countP_eq_zero] at hcount ⊢
    omega

theorem qinv_reachable (s : QueueState) (h : QReachable s) : QInv s := by
  induction h with
  | refl => exact ⟨rfl, rfl⟩
  | tail _ hstep ih => exact qinv_step ih hstep

/-- C1: in every reachable state of the request queue, the tasks whose
execution has begun, in begin order, followed by the still-pending tasks, are
exactly the submitted tasks in submission order (so tasks execute in strict
submission order), and at most one processor thread is inside a task's
execution step (no two tasks ever execute concurrently). -/
theorem request_queue_fifo_and_mutex (s : QueueState) (h : QReachable s) :
    s.execLog ++ s.pending = s.submitted
    ∧ s.procs.countP ProcPhase.isExec ≤ 1 := by
  obtain ⟨hcount, hfifo⟩ := qinv_reachable s h
  refine ⟨hfifo, ?_⟩
  have hle : s.procs.countP ProcPhase.isExec ≤ s.procs.countP ProcPhase.isOwner :=
    List.countP_mono_left (fun a _ hp => by
      cases a with
      | entered => exact absurd hp (by simp [ProcPhase.isExec])
      | looping => rfl
      | executing t => rfl)
  rw [hcount] at hle
  cases hps : s.processing with
  | true => rw [hps] at hle; exact hle
  | false => rw [hps] at hle; exact le_trans hle (by decide)

/-- Witness for C1 at the reachable state in which one submitted task (7) has
been claimed by the single processor thread and is executing. -/
theorem request_queue_fifo_and_mutex_witness :
    ({ pending := [], processing := true, procs := [ProcPhase.executing 7],
       execLog := [7], submitted := [7] } : QueueState).execLog ++
      ({ pending := [], processing := true, procs := [ProcPhase.executing 7],
         execLog := [7], submitted := [7] } : QueueState).pending =
      ({ pending := [], processing := true, procs := [ProcPhase.executing 7],
         execLog := [7], submitted := [7] } : QueueState).submitted
    ∧ ({ pending := [], processing := true, procs := [ProcPhase.executing 7],
         execLog := [7], submitted := [7] } : QueueState).procs.countP
        ProcPhase.isExec ≤ 1 :=
  request_queue_fifo_and_mutex
    { pending := [], processing := true, procs := [ProcPhase.executing 7],
      execLog := [7], submitted := [7] }
    (Relation.ReflTransGen.tail
      (Relation.ReflTransGen.tail
        (Relation.ReflTransGen.single (QStep.submit initQueue 7))
        (QStep.enterOwn _ [] [] rfl rfl))
      (QStep.popTask _ [] [] 7 [] rfl rfl))

end Maistro
